import Mathlib

/-!
Verification development for the `phconvert` HDF5 module
(`phconvert/hdf5.py`).

Python strings are modelled as Lean `String` (a structure over `List Char`),
with the Python string operations (`in` as substring test, `startswith`,
`endswith`, `split('/')`, `'/'.join`) defined below directly over the
character lists.  Python exceptions are modelled by the `PyErr` type; the
validator, which either raises an exception or prints warnings and
continues, is modelled by the `VOut` type carrying the accumulated warning
messages and an optional (fail-fast) error.  The hierarchical HDF5 file is
modelled by the `HNode` tree.
-/

/-- Python exceptions relevant to this module. -/
inductive PyErr where
  | invalid (msg : String)      -- Invalid_PhotonHDF5
  | attributeError              -- AttributeError (attribute access on a str)
  | noSuchNode                  -- pytables NoSuchNodeError (missing child on attribute access)
  | assertionError              -- failed `assert`
  | indexError                  -- s[0] / s[-1] on an empty string
  | keyError (k : String)       -- dict.pop on a missing key
deriving DecidableEq, Repr

/-- Outcome of a validation step: warnings printed so far and, possibly, the
raised exception (fail-fast: once `err` is set, nothing further runs). -/
structure VOut where
  warns : List String
  err : Option PyErr
deriving DecidableEq, Repr

def VOut.ok : VOut := ⟨[], none⟩

def VOut.raise (e : PyErr) : VOut := ⟨[], some e⟩

/-- Model of `_raise_invalid_file(msg, strict)`: raise when strict, else print a warning. -/
def _raise_invalid_file (msg : String) (strict : Bool) : VOut :=
  if strict then VOut.raise (PyErr.invalid msg) else ⟨[msg], none⟩

/-- Sequencing of two validation steps: an already-raised exception aborts,
otherwise warnings accumulate. -/
def VOut.andThen (a b : VOut) : VOut :=
  match a.err with
  | some _ => a
  | none => ⟨a.warns ++ b.warns, b.err⟩

/-! ### Python string operations over `List Char` -/

/-- Python `needle in hay` (contiguous substring test), on character lists. -/
def containsSub : List Char → List Char → Bool
  | [], needle => decide (needle = [])
  | c :: rest, needle =>
      decide (needle = (c :: rest).take needle.length) || containsSub rest needle

/-- Python `needle in hay` on strings. -/
def strContains (hay needle : String) : Bool := containsSub hay.data needle.data

/-- Python `s.startswith(p)`. -/
def strStartsWith (s p : String) : Bool := decide (p.data = s.data.take p.data.length)

/-- Python `s.endswith(p)`. -/
def strEndsWith (s p : String) : Bool :=
  decide (p.data = s.data.drop (s.data.length - p.data.length)) &&
    decide (p.data.length ≤ s.data.length)

/-- Python `s.split('/')` on character lists (always returns at least one chunk). -/
def splitSlash : List Char → List (List Char)
  | [] => [[]]
  | c :: cs =>
      match splitSlash cs with
      | [] => []   -- unreachable: splitSlash never returns []
      | h :: t => if c = '/' then [] :: h :: t else (c :: h) :: t

/-- Python `'/'.join(parts)` on character lists. -/
def joinSlash : List String → List Char
  | [] => []
  | [s] => s.data
  | s :: rest => s.data ++ '/' :: joinSlash rest

/-- The reserved namespace literal, as characters: `"/photon_data"` (length 12). -/
def photonDataChars : List Char := "/photon_data".data

/-- The digit-stripping regex `'/photon_data[0-9]*(.*)'` applied after a
`startswith('/photon_data')` test: remove the digit run that immediately
follows the literal `/photon_data` (paths contain no newline, so the greedy
`(.*)` captures the whole remainder). -/
def stripPhotonDataDigits (path : String) : String :=
  if strStartsWith path "/photon_data" then
    String.mk (photonDataChars ++ (path.data.drop 12).dropWhile Char.isDigit)
  else path

/-! ### The HDF5 tree model -/

/-- A pytables node: a group with named children, or a leaf array.  The only
leaf payload the validator ever reads is the `measurement_type` string, so
leaf values are modelled as strings. -/
inductive HNode where
  | group (children : List (String × HNode))
  | leaf (value : String)

def HNode.children : HNode → List (String × HNode)
  | .group ch => ch
  | .leaf _ => []

/-- First child with the given name (pytables child names are unique). -/
def HNode.find (g : HNode) (name : String) : Option HNode :=
  (g.children.find? (fun nc => decide (nc.1 = name))).map (·.2)

/-- Python `name in group` on a pytables group: child-name membership. -/
def HNode.hasChild (g : HNode) (name : String) : Bool := (g.find name).isSome

def HNode.isGroup : HNode → Bool
  | .group _ => true
  | .leaf _ => false

/-- Names of the child *groups* only (`group._v_groups.keys()`). -/
def HNode.groupKeys (g : HNode) : List String :=
  (g.children.filter (fun nc => nc.2.isGroup)).map (·.1)

/-- pytables pathname of a child: `'/' + name` under the root, else
`parent + '/' + name`. -/
def childPath (parent name : String) : String :=
  if parent = "/" then "/" ++ name else parent ++ "/" ++ name

/-! ### The official field-description table -/

/-- Modelled from the spec: the official built-in description table
(`official_fields_descr`, defined in the repository's `metadata` module,
which is not under `src/`).  Per the spec (section 6, "Schema table
format") it is a flat mapping from canonical SchemaPath strings
(slash-delimited, root-relative, no trailing slash) to human-readable
description strings; its keys cover the root, the always-required
top-level fields, the photon_data group with its timestamp and
measurement-specs structure, the provenance and identity groups, and the
setup group with its instrument-configuration fields.  The description
texts themselves are immaterial to validation, which only tests key
membership. -/
def official_fields_descr : List (String × String) :=
  [ ("/", "Photon-HDF5 file"),
    ("/acquisition_time", "acquisition time"),
    ("/comment", "free-text comment"),
    ("/photon_data", "photon data group"),
    ("/photon_data/timestamps", "photon timestamps"),
    ("/photon_data/timestamps_specs", "timestamps metadata"),
    ("/photon_data/timestamps_specs/timestamps_unit", "timestamps unit"),
    ("/photon_data/nantotimes", "TCSPC nanotimes"),
    ("/photon_data/nantotimes_specs", "nanotimes metadata"),
    ("/photon_data/nantotimes_specs/tcspc_unit", "TCSPC unit"),
    ("/photon_data/nantotimes_specs/tcspc_range", "TCSPC range"),
    ("/photon_data/nantotimes_specs/tcspc_num_bins", "TCSPC number of bins"),
    ("/photon_data/nantotimes_specs/time_reversed", "time direction flag"),
    ("/photon_data/measurement_specs", "measurement specifications"),
    ("/photon_data/measurement_specs/measurement_type", "measurement type"),
    ("/photon_data/measurement_specs/alex_period", "alternation period"),
    ("/photon_data/measurement_specs/laser_pulse_rate", "laser pulse rate"),
    ("/photon_data/measurement_specs/detectors_specs", "detector channel descriptors"),
    ("/photon_data/measurement_specs/detectors_specs/spectral_ch1", "spectral channel 1"),
    ("/photon_data/measurement_specs/detectors_specs/spectral_ch2", "spectral channel 2"),
    ("/provenance", "provenance group"),
    ("/provenance/filename", "original file name"),
    ("/provenance/filename_full", "original file full path"),
    ("/identity", "identity group"),
    ("/setup", "setup group"),
    ("/setup/num_pixels", "number of pixels"),
    ("/setup/num_spots", "number of spots"),
    ("/setup/num_spectral_ch", "number of spectral channels"),
    ("/setup/num_polarization_ch", "number of polarization channels"),
    ("/setup/num_split_ch", "number of split channels"),
    ("/setup/modulated_excitation", "modulated excitation flag"),
    ("/setup/lifetime", "lifetime mode flag") ]

/-- Python dict lookup `d.get(k)` / `d[k]` on an association list. -/
def dictGet {α : Type} (d : List (String × α)) (k : String) : Option α :=
  (d.find? (fun kv => decide (kv.1 = k))).map (·.2)

/-! ### The validator -/

/-- Model of `_check_has_field(name, group, strict)`.  NOTE (faithful to the source,
lines 275-278): the `strict` argument is accepted but *not forwarded* to
`_raise_invalid_file`, which therefore runs with its default
`strict=True` and always raises. -/
def _check_has_field (name : String) (group : HNode) (groupPath : String)
    (strict : Bool) : VOut :=
  if group.hasChild name then VOut.ok
  else _raise_invalid_file ("Missing \"" ++ name ++ "\" in \"" ++ groupPath ++ "\".") true

/-- Model of `_check_path(path, strict)`: paths containing the substring `/user` are
exempt; otherwise a digit run after a leading `/photon_data` is stripped and
the result must be a key of the official table. -/
def _check_path (path : String) (strict : Bool) : VOut :=
  if strContains path "/user" then VOut.ok
  else
    let path := stripPhotonDataDigits path
    if (dictGet official_fields_descr path).isSome then VOut.ok
    else _raise_invalid_file
      ("Unknown field \"" ++ path ++ "\". Custom fields must be inside a \"user\" group.")
      strict

mutual

/-- Model of `group._f_walk_groups()`: the group itself followed by all descendant
groups, with pytables pathnames (descendant order is irrelevant to the
results proved here). -/
def walkGroups : HNode → String → List (String × HNode)
  | .leaf _, _ => []
  | .group ch, p => (p, .group ch) :: walkGroupsList ch p

def walkGroupsList : List (String × HNode) → String → List (String × HNode)
  | [], _ => []
  | nc :: rest, p => walkGroups nc.2 (childPath p nc.1) ++ walkGroupsList rest p

end

/-- Inner loop of `_check_valid_names`: check each direct child's pathname
unless already verified, threading the `already_verified` list. -/
def checkChildren (ch : List (String × HNode)) (p : String)
    (verified : List String) (strict : Bool) : List String × VOut :=
  ch.foldl
    (fun acc nc =>
      let cp := childPath p nc.1
      if cp ∈ acc.1 then acc
      else (acc.1 ++ [cp], acc.2.andThen (_check_path cp strict)))
    (verified, VOut.ok)

/-- Outer loop of `_check_valid_names` over the walked groups. -/
def checkGroupsFold : List (String × HNode) → List String → Bool → VOut
  | [], _, _ => VOut.ok
  | (p, g) :: rest, verified, strict =>
    let out1 := _check_path p strict
    let inner := checkChildren g.children p (verified ++ [p]) strict
    out1.andThen (inner.2.andThen (checkGroupsFold rest inner.1 strict))

/-- Model of `_check_valid_names(data, strict)`. -/
def _check_valid_names (data : HNode) (strict : Bool) : VOut :=
  checkGroupsFold (walkGroups data "/") [] strict

/-- Recognized measurement types (`spectral_meas_types`). -/
def spectral_meas_types : List String :=
  ["smFRET", "smFRET-usALEX", "smFRET-usALEX-3c", "smFRET-nsALEX"]

/-- Reading a node (`measurement_specs.measurement_type.read()`): a leaf yields its
value; attribute access of `.read` on a group fails. -/
def readLeaf : HNode → Except PyErr String
  | .leaf v => Except.ok v
  | .group _ => Except.error PyErr.noSuchNode

/-- Message of `_assert_has_field` inside `_check_photon_data`. -/
def missingMsg (name gpath : String) : String :=
  "Missing \"" ++ name ++ "\" in \"" ++ gpath ++ "\"."

/-- Message of `_assert_has_field_mtype`. -/
def mtypeMsg (name gpath mt : String) : String :=
  "Missing \"" ++ name ++ "\" in \"" ++ gpath ++ "\".\nThis field is mandatory for \""
    ++ mt ++ "\" data."

/-- Model of `_assert_has_field_mtype(name, group)`: raises unconditionally
(regardless of `strict`) when the field is missing. -/
def assertHasFieldMtype (name : String) (group : HNode) (gpath mt : String) : VOut :=
  if group.hasChild name then VOut.ok
  else VOut.raise (PyErr.invalid (mtypeMsg name gpath mt))

/-- Model of `_check_photon_data(ph_data, strict)` on a pytables group whose pathname
is `path`. -/
def _check_photon_data (ph_data : HNode) (path : String) (strict : Bool) : VOut :=
  -- the inner `_assert_has_field` raises unconditionally
  if ¬ ph_data.hasChild "timestamps" then
    VOut.raise (PyErr.invalid (missingMsg "timestamps" path))
  else if ¬ ph_data.hasChild "timestamps_specs" then
    VOut.raise (PyErr.invalid (missingMsg "timestamps_specs" path))
  else
    match ph_data.find "timestamps_specs" with
    | none => VOut.raise PyErr.attributeError   -- unreachable
    | some tspecs =>
      if ¬ tspecs.hasChild "timestamps_unit" then
        VOut.raise (PyErr.invalid (missingMsg "timestamps_unit" (path ++ "/timestamps_specs")))
      else if ¬ ph_data.hasChild "measurement_specs" then
        _raise_invalid_file "Missing \"measurement_specs\"." strict
      else
        match ph_data.find "measurement_specs" with
        | none => VOut.raise PyErr.attributeError   -- unreachable
        | some mspecs =>
          if ¬ mspecs.hasChild "measurement_type" then
            _raise_invalid_file "Missing \"measurement_type\"" strict
          else
            match mspecs.find "measurement_type" with
            | none => VOut.raise PyErr.attributeError   -- unreachable
            | some mtNode =>
              match readLeaf mtNode with
              | Except.error e => VOut.raise e
              | Except.ok mt =>
                if ¬ mt ∈ spectral_meas_types then
                  VOut.raise (PyErr.invalid ("Unkwnown measurement type \"" ++ mt ++ "\""))
                else
                  -- `detectors_specs = measurement_specs.detectors_specs`
                  match mspecs.find "detectors_specs" with
                  | none => VOut.raise PyErr.noSuchNode
                  | some dspecs =>
                    let dpath := path ++ "/measurement_specs/detectors_specs"
                    let mspath := path ++ "/measurement_specs"
                    (assertHasFieldMtype "spectral_ch1" dspecs dpath mt).andThen <|
                    (assertHasFieldMtype "spectral_ch2" dspecs dpath mt).andThen <|
                    (if mt = "smFRET-usALEX" ∨ mt = "smFRET-usALEX-3c" then
                        assertHasFieldMtype "alex_period" mspecs mspath mt
                      else VOut.ok).andThen <|
                    (if mt = "smFRET-nsALEX" then
                        (assertHasFieldMtype "laser_pulse_rate" mspecs mspath mt).andThen <|
                        (assertHasFieldMtype "nantotimes" ph_data path mt).andThen <|
                        (assertHasFieldMtype "nantotimes_specs" ph_data path mt).andThen <|
                        (match ph_data.find "nantotimes_specs" with
                          | none => VOut.raise PyErr.noSuchNode
                          | some nts =>
                            ["tcspc_unit", "tcspc_range", "tcspc_num_bins", "time_reversed"].foldl
                              (fun acc n =>
                                acc.andThen
                                  (assertHasFieldMtype n nts (path ++ "/nantotimes_specs") mt))
                              VOut.ok)
                      else VOut.ok)

/-- Behaviour of `_check_photon_data` when it is invoked on a `str` (the
numbered-family branch of `assert_valid_photon_hdf5`, source line 333,
passes the child *names* from `_v_groups.keys()`, not the nodes): the
Python membership tests `'timestamps' in ph_data` become substring tests,
and every continuation path evaluates an attribute (`._v_pathname` in the
error message, or `.timestamps_specs`) on the string, raising
AttributeError. -/
def _check_photon_data_str (s : String) (strict : Bool) : VOut :=
  if ¬ strContains s "timestamps" then VOut.raise PyErr.attributeError
  else if ¬ strContains s "timestamps_specs" then VOut.raise PyErr.attributeError
  else VOut.raise PyErr.attributeError

/-- Mandatory setup fields (`mantatory_fields`, spelling as in the source). -/
def mantatory_fields : List String :=
  ["num_pixels", "num_spots", "num_spectral_ch", "num_polarization_ch",
   "num_split_ch", "modulated_excitation", "lifetime"]

/-- One iteration of the `_check_setup` loop. -/
def setupStep (setup : HNode) (strict : Bool) (name : String) : VOut :=
  if setup.hasChild name then VOut.ok
  else _raise_invalid_file ("Missing \"/setup/" ++ name ++ "\".") strict

/-- Model of `_check_setup(setup, strict)`. -/
def _check_setup (setup : HNode) (strict : Bool) : VOut :=
  mantatory_fields.foldl (fun acc n => acc.andThen (setupStep setup strict n)) VOut.ok

/-- Insertion into a sorted list of strings (Python `list.sort()`). -/
def insertSorted (s : String) : List String → List String
  | [] => [s]
  | t :: ts => if s < t then s :: t :: ts else t :: insertSorted s ts

/-- Python `list.sort()` on strings (the resulting order only affects the
order of the per-group checks, not the results proved here). -/
def sortStrings (l : List String) : List String := l.foldr insertSorted []

/-- Measurement-group discovery and per-group checks of
`assert_valid_photon_hdf5` (source lines 323-334). -/
def phDataPhase (data : HNode) (strict : Bool) : VOut :=
  if data.hasChild "photon_data" then
    match data.find "photon_data" with
    | none => VOut.raise PyErr.attributeError   -- unreachable
    | some g => _check_photon_data g "/photon_data" strict
  else if data.hasChild "photon_data0" then
    let keys := sortStrings ((data.groupKeys).filter (fun k => strStartsWith k "photon_data"))
    keys.foldl (fun acc k => acc.andThen (_check_photon_data_str k strict)) VOut.ok
  else VOut.raise (PyErr.invalid "Invalid Photon-HDF5: missing \"photon_data\" group.")

/-- Setup phase of `assert_valid_photon_hdf5` (source lines 336-340). -/
def setupPhase (data : HNode) (strict : Bool) : VOut :=
  if data.hasChild "setup" then
    match data.find "setup" with
    | none => VOut.raise PyErr.attributeError   -- unreachable
    | some s => _check_setup s strict
  else _raise_invalid_file "Invalid Photon-HDF5: Missing /setup group." strict

/-- Model of `assert_valid_photon_hdf5(data, strict)`. -/
def assert_valid_photon_hdf5 (data : HNode) (strict : Bool) : VOut :=
  (_check_valid_names data strict).andThen <|
  (_check_has_field "acquisition_time" data "/" strict).andThen <|
  (_check_has_field "comment" data "/" strict).andThen <|
  (phDataPhase data strict).andThen <|
  setupPhase data strict

/-! ### `_analyze_path` (the writer's path normalizer) -/

/-- Model of `_analyze_path(name, prefix_list)` (source lines 32-67).  The ancestor
list is a Lean `List String`; the Python caller may pass `None` or a list,
and `[]` covers both (the source guards with
`prefix_list is not None and len(prefix_list) > 0`).  Returns the meta
path (digits after a leading `/photon_data` stripped), the
`is_phdata` flag and the `is_user` flag; the source's `assert`
statements are modelled as `assertionError` outcomes (and indexing into an
empty string as `indexError`). -/
def _analyze_path (name : String) (ancestors : List String) :
    Except PyErr (String × Bool × Bool) :=
  if name.data = [] then Except.error PyErr.indexError
  else if name.data.head? = some '/' ∨ name.data.getLast? = some '/' then
    Except.error PyErr.assertionError
  else
    let step : Except PyErr (List Char) :=
      if ancestors.isEmpty then Except.ok ('/' :: name.data)
      else
        let p := joinSlash ancestors
        if p = [] then Except.error PyErr.indexError
        else if p.head? = some '/' ∨ p.getLast? = some '/' then
          Except.error PyErr.assertionError
        else Except.ok ('/' :: p ++ '/' :: name.data)
    match step with
    | Except.error e => Except.error e
    | Except.ok fp =>
      let chunks := (splitSlash fp).map String.mk
      if chunks.length < 2 then Except.error PyErr.assertionError
      else if ¬ chunks.getLast? = some name then Except.error PyErr.assertionError
      else
        let is_user := decide ("user" ∈ chunks)
        let full_path := String.mk fp
        if strStartsWith full_path "/photon_data" then
          Except.ok (stripPhotonDataDigits full_path,
                     decide (chunks.length = 3) && ! strEndsWith name "_specs",
                     is_user)
        else Except.ok (full_path, false, is_user)

/-- The on-disk pathname the validator builds for a node reached through
the segment list `segs` from the root (iterated pytables pathname). -/
def renderPath (segs : List String) : String := segs.foldl childPath "/"

/-! ### The dictionary manipulation of `save_photon_hdf5` -/

/-- Python `d.update(u)` at association-list level: on lookup, entries of
`u` win over entries of `d`. -/
def dictUpdate {α : Type} (d u : List (String × α)) : List (String × α) :=
  u ++ d.filter (fun kv => ! u.any (fun kv2 => decide (kv2.1 = kv.1)))

/-- Python `d[k] = v` at association-list level. -/
def dictSet {α : Type} (d : List (String × α)) (k : String) (v : α) :
    List (String × α) :=
  dictUpdate d [(k, v)]

/-- Python `d.pop(k)` (the removal part). -/
def popKey {α : Type} (d : List (String × α)) (k : String) : List (String × α) :=
  d.filter (fun kv => ! decide (kv.1 = k))

/-- The merged field-description table built by `save_photon_hdf5`
(source lines 203-205): a copy of the official table, updated with the
user overlay when one is given. -/
def buildFieldsDescr (user_descr : Option (List (String × String))) :
    List (String × String) :=
  match user_descr with
  | none => official_fields_descr
  | some u => dictUpdate official_fields_descr u

/-- Top-level values stored in the caller's data dictionary. -/
inductive PyVal where
  | pystr (s : String)        -- e.g. the value of 'filename'
  | dataFileRef               -- the opened pytables file object
  | identityDict              -- the injected identity metadata dict
deriving DecidableEq, Repr

/-- The dictionary manipulation performed by `save_photon_hdf5`
(source lines 155-200), abstracted from the filesystem I/O: when
`h5_fname` is `None` the source pops `'filename'` from the caller's dict
(KeyError when absent); it then keeps a reference `backup` to the
caller's dict, replaces `data_dict` by a shallow copy, adds
`data_file` to `backup` (i.e. to the caller's dict), and adds the
injected `identity` group only to the copy.  Returns
(caller's dict after the call, internal copy written to disk). -/
def save_photon_hdf5_dicts (data_dict : List (String × PyVal))
    (h5_fname : Option String) :
    Except PyErr (List (String × PyVal) × List (String × PyVal)) :=
  match h5_fname with
  | none =>
    match dictGet data_dict "filename" with
    | none => Except.error (PyErr.keyError "filename")
    | some _ =>
      let d0 := popKey data_dict "filename"
      Except.ok (dictSet d0 "data_file" PyVal.dataFileRef,
                 dictSet d0 "identity" PyVal.identityDict)
  | some _ =>
      Except.ok (dictSet data_dict "data_file" PyVal.dataFileRef,
                 dictSet data_dict "identity" PyVal.identityDict)

/-! ### Concrete example trees -/

/-- A complete, valid `setup` group. -/
def exSetupFull : HNode := .group [
  ("num_pixels", .leaf "2"), ("num_spots", .leaf "1"),
  ("num_spectral_ch", .leaf "2"), ("num_polarization_ch", .leaf "1"),
  ("num_split_ch", .leaf "1"), ("modulated_excitation", .leaf "0"),
  ("lifetime", .leaf "0")]

/-- A complete, valid smFRET measurement group. -/
def exPhotonData : HNode := .group [
  ("timestamps", .leaf "ts"),
  ("timestamps_specs", .group [("timestamps_unit", .leaf "1e-8")]),
  ("measurement_specs", .group [
     ("measurement_type", .leaf "smFRET"),
     ("detectors_specs", .group [("spectral_ch1", .leaf "0"), ("spectral_ch2", .leaf "1")])])]

/-- A root tree that is fully valid except that `comment` is absent. -/
def exValidNoComment : HNode := .group [
  ("acquisition_time", .leaf "300"),
  ("photon_data", exPhotonData),
  ("setup", exSetupFull)]

/-- A root tree that is fully valid except that `acquisition_time` is absent. -/
def exValidNoAcq : HNode := .group [
  ("comment", .leaf "c"),
  ("photon_data", exPhotonData),
  ("setup", exSetupFull)]

/-- A root tree whose measurement data lives in a numbered family with the
single, fully valid member `photon_data0`. -/
def exFamilyTree : HNode := .group [
  ("acquisition_time", .leaf "300"),
  ("comment", .leaf "c"),
  ("photon_data0", exPhotonData),
  ("setup", exSetupFull)]

/-- A root tree whose only measurement group is the numbered child
`photon_data1` (no `photon_data`, no `photon_data0`). -/
def exPd1Tree : HNode := .group [
  ("acquisition_time", .leaf "300"),
  ("comment", .leaf "c"),
  ("photon_data1", exPhotonData),
  ("setup", exSetupFull)]

/-- A fully valid root tree. -/
def exFullValid : HNode := .group [
  ("acquisition_time", .leaf "300"),
  ("comment", .leaf "c"),
  ("photon_data", exPhotonData),
  ("setup", exSetupFull)]

/-- An empty measurement group (no `timestamps`). -/
def exEmptyGroup : HNode := .group []

/-- Sanity: the fully valid tree passes strict validation with no warnings. -/
theorem exFullValid_passes : assert_valid_photon_hdf5 exFullValid true = VOut.ok := by
  decide

/-! ### Helper lemmas -/

theorem hasChild_of_find {g : HNode} {n : String} {c : HNode}
    (h : g.find n = some c) : g.hasChild n = true := by
  simp [HNode.hasChild, h]

theorem andThen_of_err_isSome {a : VOut} (b : VOut) (h : a.err.isSome) :
    a.andThen b = a := by
  unfold VOut.andThen
  cases ha : a.err with
  | none => rw [ha] at h; simp at h
  | some e => simp

theorem andThen_err_none {a b : VOut} (ha : a.err = none) :
    a.andThen b = ⟨a.warns ++ b.warns, b.err⟩ := by
  unfold VOut.andThen
  rw [ha]

theorem foldVOut_frozen (f : String → VOut) (l : List String) (acc : VOut)
    (h : acc.err.isSome) :
    l.foldl (fun a n => a.andThen (f n)) acc = acc := by
  induction l with
  | nil => rfl
  | cons x xs ih =>
    simp only [List.foldl_cons, andThen_of_err_isSome (f x) h]
    exact ih

theorem foldVOut_err_none (f : String → VOut) (hf : ∀ n, (f n).err = none)
    (l : List String) (acc : VOut) (h : acc.err = none) :
    (l.foldl (fun a n => a.andThen (f n)) acc).err = none := by
  induction l generalizing acc with
  | nil => exact h
  | cons x xs ih =>
    simp only [List.foldl_cons]
    exact ih _ (by rw [andThen_err_none h]; exact hf x)

theorem andThen_err_none_iff {a b : VOut} :
    (a.andThen b).err = none ↔ a.err = none ∧ b.err = none := by
  unfold VOut.andThen
  cases h : a.err <;> simp [h]

theorem foldVOut_ok_of_mem (f : String → VOut) (l : List String) (acc : VOut)
    (n : String) (hn : n ∈ l)
    (h : (l.foldl (fun a m => a.andThen (f m)) acc).err = none) :
    (f n).err = none := by
  induction l generalizing acc with
  | nil => cases hn
  | cons x xs ih =>
    simp only [List.foldl_cons] at h
    have hacc' : (acc.andThen (f x)).err = none := by
      by_contra hc
      rw [foldVOut_frozen f xs _ (Option.ne_none_iff_isSome.mp hc)] at h
      exact hc h
    cases hn with
    | head => exact (andThen_err_none_iff.mp hacc').2
    | tail _ hmem => exact ih _ hmem h

theorem foldVOut_warns_mono (f : String → VOut) (l : List String) (acc : VOut)
    (w : String) (hw : w ∈ acc.warns) :
    w ∈ (l.foldl (fun a n => a.andThen (f n)) acc).warns := by
  induction l generalizing acc with
  | nil => exact hw
  | cons x xs ih =>
    simp only [List.foldl_cons]
    apply ih
    unfold VOut.andThen
    cases acc.err with
    | none => simp [hw]
    | some e => exact hw

theorem foldVOut_warn_mem (f : String → VOut) (hf : ∀ m, (f m).err = none)
    (l : List String) (acc : VOut)
    (n : String) (hn : n ∈ l) (hacc : acc.err = none)
    (w : String) (hw : w ∈ (f n).warns) :
    w ∈ (l.foldl (fun a m => a.andThen (f m)) acc).warns := by
  induction l generalizing acc with
  | nil => cases hn
  | cons x xs ih =>
    simp only [List.foldl_cons]
    cases hn with
    | head =>
      apply foldVOut_warns_mono
      rw [andThen_err_none hacc]
      simp [hw]
    | tail _ hmem =>
      exact ih _ hmem (by rw [andThen_err_none hacc]; exact hf x)

deriving instance DecidableEq for Except

theorem dropWhile_idem {α : Type} (p : α → Bool) (l : List α) :
    (l.dropWhile p).dropWhile p = l.dropWhile p := by
  induction l with
  | nil => rfl
  | cons x xs ih =>
    by_cases h : p x
    · simp [List.dropWhile_cons, h, ih]
    · simp [List.dropWhile_cons, h]

/-- Stripping the digits after `/photon_data` is idempotent. -/
theorem stripPhotonDataDigits_idem (s : String) :
    stripPhotonDataDigits (stripPhotonDataDigits s) = stripPhotonDataDigits s := by
  unfold stripPhotonDataDigits
  by_cases h : strStartsWith s "/photon_data" = true
  · simp only [h, if_true]
    set t := (s.data.drop 12).dropWhile Char.isDigit with ht
    have hstarts : strStartsWith (String.mk (photonDataChars ++ t))
        "/photon_data" = true := by
      unfold strStartsWith
      rw [decide_eq_true_eq]
      exact (List.take_left photonDataChars _).symm
    simp only [hstarts, if_true]
    congr 1
    have hdrop : ((String.mk (photonDataChars ++ t)).data).drop 12 = t := by
      have h2 := List.drop_left photonDataChars t
      have h3 : photonDataChars.length = 12 := by decide
      rw [h3] at h2
      exact h2
    rw [hdrop, dropWhile_idem]
  · simp only [Bool.not_eq_true] at h
    simp [h]

/-- Claim C2 (the code contradicts it): on a root tree that is fully valid
except for a missing `comment` (resp. `acquisition_time`), validation
raises `Invalid_PhotonHDF5` even with `strict = false`, instead of only
warning: `_check_has_field` accepts a `strict` argument but does not
forward it to `_raise_invalid_file`, which therefore runs with its
default `strict=True`. -/
theorem C2_missing_comment_raises_even_lenient :
    (assert_valid_photon_hdf5 exValidNoComment false).err
      = some (PyErr.invalid "Missing \"comment\" in \"/\".")
    ∧ (assert_valid_photon_hdf5 exValidNoComment true).err
      = some (PyErr.invalid "Missing \"comment\" in \"/\".")
    ∧ (assert_valid_photon_hdf5 exValidNoAcq false).err
      = some (PyErr.invalid "Missing \"acquisition_time\" in \"/\".") := by
  refine ⟨by decide, by decide, by decide⟩

/-- Claim C3, counterexample: on a measurement group missing `timestamps`,
`_check_photon_data` with `strict = false` raises `Invalid_PhotonHDF5`
(and emits no warning), contradicting the claim that the check is
severity-gated by `strict`. -/
theorem C3_counterexample_timestamps_hard_when_lenient :
    _check_photon_data exEmptyGroup "/photon_data" false
      = VOut.raise (PyErr.invalid "Missing \"timestamps\" in \"/photon_data\".") := by
  decide

/-- Claim C3 as amended: for every measurement group, the checks for the
`timestamps` field, the `timestamps_specs` subgroup and the
`timestamps_unit` field inside it raise `Invalid_PhotonHDF5`
unconditionally when the item is missing, for both values of `strict`
(the inner `_assert_has_field` of `_check_photon_data` ignores
`strict`). -/
theorem C3_timestamps_checks_unconditionally_hard
    (ph_data : HNode) (path : String) (strict : Bool) :
    (ph_data.hasChild "timestamps" = false →
      _check_photon_data ph_data path strict
        = VOut.raise (PyErr.invalid (missingMsg "timestamps" path)))
    ∧ (ph_data.hasChild "timestamps" = true →
       ph_data.hasChild "timestamps_specs" = false →
      _check_photon_data ph_data path strict
        = VOut.raise (PyErr.invalid (missingMsg "timestamps_specs" path)))
    ∧ (∀ tspecs : HNode, ph_data.hasChild "timestamps" = true →
       ph_data.find "timestamps_specs" = some tspecs →
       tspecs.hasChild "timestamps_unit" = false →
      _check_photon_data ph_data path strict
        = VOut.raise (PyErr.invalid
            (missingMsg "timestamps_unit" (path ++ "/timestamps_specs")))) := by
  refine ⟨fun h1 => ?_, fun h1 h2 => ?_, fun tspecs h1 h2 h3 => ?_⟩
  · unfold _check_photon_data
    simp [h1]
  · unfold _check_photon_data
    simp [h1, h2]
  · unfold _check_photon_data
    simp [h1, hasChild_of_find h2, h2, h3]

/-- Witness for the amended claim C3 at concrete inputs. -/
theorem C3_timestamps_checks_unconditionally_hard_witness :
    _check_photon_data exEmptyGroup "/photon_data" true
      = VOut.raise (PyErr.invalid (missingMsg "timestamps" "/photon_data"))
    ∧ _check_photon_data (.group [("timestamps", .leaf "ts"),
        ("timestamps_specs", .group [])]) "/photon_data" false
      = VOut.raise (PyErr.invalid
          (missingMsg "timestamps_unit" "/photon_data/timestamps_specs")) :=
  ⟨(C3_timestamps_checks_unconditionally_hard exEmptyGroup "/photon_data" true).1
      (by decide),
   (C3_timestamps_checks_unconditionally_hard (.group [("timestamps", .leaf "ts"),
        ("timestamps_specs", .group [])]) "/photon_data" false).2.2
      (.group []) (by decide) rfl (by decide)⟩

/-- Claim C5 (the code contradicts it): on a root tree whose measurement
data is the numbered family member `photon_data0` (fully valid),
validation does not run the per-group checks but crashes with
AttributeError, because the family branch passes the child *names*
(strings) to `_check_photon_data`; and a root tree whose only numbered
member is `photon_data1` is rejected with the missing-`photon_data`
error although a `photon_data<N>` child is present, because the family
branch is only entered when a child named exactly `photon_data0`
exists. -/
theorem C5_family_branch_diverges :
    (assert_valid_photon_hdf5 exFamilyTree false).err = some PyErr.attributeError
    ∧ (assert_valid_photon_hdf5 exFamilyTree true).err = some PyErr.attributeError
    ∧ (assert_valid_photon_hdf5 exPd1Tree false).err
        = some (PyErr.invalid "Invalid Photon-HDF5: missing \"photon_data\" group.")
    ∧ (assert_valid_photon_hdf5 exPd1Tree true).err
        = some (PyErr.invalid "Invalid Photon-HDF5: missing \"photon_data\" group.") := by
  refine ⟨by decide, by decide, by decide, by decide⟩

theorem strip_of_not_starts {s : String}
    (h : strStartsWith s "/photon_data" = false) :
    stripPhotonDataDigits s = s := by
  unfold stripPhotonDataDigits
  simp [h]

/-- Claim C6, counterexample: calling `_analyze_path` with the whole
two-segment path as `name` and an empty ancestor list — the reading the
claim prescribes — does not return a canonical SchemaPath: it fails the
function's own `name == chunks[-1]` assertion. -/
theorem C6_counterexample_full_path_as_name :
    _analyze_path "photon_data42/timestamps" [] = Except.error PyErr.assertionError := by
  decide

/-- Claim C6 as amended: for every digit suffix n in {"", "0", "1", "42"},
analyzing the node name "timestamps" with ancestor list ["photon_data" + n]
(the decomposition `_analyze_path` actually accepts) returns the canonical
meta path `/photon_data/timestamps` (a photon-data array, not
user-scoped); the n = "" case is the already-canonical input returned
unchanged, and in general every meta path `_analyze_path` returns is a
fixed point of the digit-stripping canonicalization. -/
theorem C6_normalization_canonical :
    _analyze_path "timestamps" ["photon_data"]
      = Except.ok ("/photon_data/timestamps", true, false)
    ∧ _analyze_path "timestamps" ["photon_data0"]
      = Except.ok ("/photon_data/timestamps", true, false)
    ∧ _analyze_path "timestamps" ["photon_data1"]
      = Except.ok ("/photon_data/timestamps", true, false)
    ∧ _analyze_path "timestamps" ["photon_data42"]
      = Except.ok ("/photon_data/timestamps", true, false)
    ∧ (∀ (name : String) (ancestors : List String) (m : String) (b u : Bool),
        _analyze_path name ancestors = Except.ok (m, b, u) →
        stripPhotonDataDigits m = m) := by
  refine ⟨by decide, by decide, by decide, by decide, ?_⟩
  intro name ancestors m b u h
  unfold _analyze_path at h
  by_cases h1 : name.data = []
  · rw [if_pos h1] at h
    exact absurd h (by simp)
  · rw [if_neg h1] at h
    by_cases h2 : name.data.head? = some '/' ∨ name.data.getLast? = some '/'
    · rw [if_pos h2] at h
      exact absurd h (by simp)
    · rw [if_neg h2] at h
      have hstep : ∀ (fp : List Char),
          (if ((splitSlash fp).map String.mk).length < 2 then
             (Except.error PyErr.assertionError :
               Except PyErr (String × Bool × Bool))
           else if ¬ ((splitSlash fp).map String.mk).getLast? = some name then
             Except.error PyErr.assertionError
           else if strStartsWith (String.mk fp) "/photon_data" then
             Except.ok (stripPhotonDataDigits (String.mk fp),
               decide (((splitSlash fp).map String.mk).length = 3)
                 && ! strEndsWith name "_specs",
               decide ("user" ∈ (splitSlash fp).map String.mk))
           else Except.ok (String.mk fp, false,
               decide ("user" ∈ (splitSlash fp).map String.mk)))
            = Except.ok (m, b, u) →
          stripPhotonDataDigits m = m := by
        intro fp hfp
        by_cases h3 : ((splitSlash fp).map String.mk).length < 2
        · rw [if_pos h3] at hfp
          exact absurd hfp (by simp)
        · rw [if_neg h3] at hfp
          by_cases h4 : ((splitSlash fp).map String.mk).getLast? = some name
          · rw [if_neg (not_not_intro h4)] at hfp
            by_cases h5 : strStartsWith (String.mk fp) "/photon_data" = true
            · rw [if_pos h5] at hfp
              simp only [Except.ok.injEq, Prod.mk.injEq] at hfp
              rw [← hfp.1]
              exact stripPhotonDataDigits_idem _
            · have h5' : strStartsWith (String.mk fp) "/photon_data" = false := by
                simpa using h5
              rw [if_neg h5] at hfp
              simp only [Except.ok.injEq, Prod.mk.injEq] at hfp
              rw [← hfp.1]
              exact strip_of_not_starts h5'
          · rw [if_pos h4] at hfp
            exact absurd hfp (by simp)
      by_cases h6 : ancestors.isEmpty = true
      · rw [if_pos h6] at h
        exact hstep _ h
      · rw [if_neg h6] at h
        by_cases h7 : joinSlash ancestors = []
        · rw [if_pos h7] at h
          exact absurd h (by simp)
        · rw [if_neg h7] at h
          by_cases h8 : (joinSlash ancestors).head? = some '/'
              ∨ (joinSlash ancestors).getLast? = some '/'
          · rw [if_pos h8] at h
            exact absurd h (by simp)
          · rw [if_neg h8] at h
            exact hstep _ h

/-- Witness for the amended claim C6 (the idempotence conjunct has a
hypothesis): applied at a concrete analyzed path. -/
theorem C6_normalization_canonical_witness :
    stripPhotonDataDigits "/photon_data/timestamps" = "/photon_data/timestamps" :=
  C6_normalization_canonical.2.2.2.2 "timestamps" ["photon_data7"]
    "/photon_data/timestamps" true false (by decide)

theorem ok_andThen (b : VOut) : VOut.ok.andThen b = b := by
  unfold VOut.andThen VOut.ok
  simp

theorem raise_andThen (e : PyErr) (b : VOut) :
    (VOut.raise e).andThen b = VOut.raise e := rfl

/-- Claim C4: when the `timestamps` structure is in place and
`measurement_specs/measurement_type` holds a value outside the recognized
set, `_check_photon_data` raises `Invalid_PhotonHDF5` unconditionally,
for both values of `strict`. -/
theorem C4_unknown_measurement_type_hard
    (ph_data tspecs mspecs : HNode) (path mt : String) (strict : Bool)
    (h1 : ph_data.hasChild "timestamps" = true)
    (h2 : ph_data.find "timestamps_specs" = some tspecs)
    (h3 : tspecs.hasChild "timestamps_unit" = true)
    (h4 : ph_data.find "measurement_specs" = some mspecs)
    (h5 : mspecs.find "measurement_type" = some (.leaf mt))
    (h6 : mt ∉ spectral_meas_types) :
    _check_photon_data ph_data path strict
      = VOut.raise (PyErr.invalid ("Unkwnown measurement type \"" ++ mt ++ "\"")) := by
  unfold _check_photon_data
  simp [h1, hasChild_of_find h2, h2, h3, hasChild_of_find h4, h4,
        hasChild_of_find h5, h5, readLeaf, h6]

/-- Witness for claim C4: a measurement group with the unrecognized
discriminator value "generic". -/
theorem C4_unknown_measurement_type_hard_witness :
    _check_photon_data (.group [
        ("timestamps", .leaf "ts"),
        ("timestamps_specs", .group [("timestamps_unit", .leaf "1e-8")]),
        ("measurement_specs", .group [("measurement_type", .leaf "generic")])])
      "/photon_data" false
      = VOut.raise (PyErr.invalid "Unkwnown measurement type \"generic\"") :=
  C4_unknown_measurement_type_hard _
    (.group [("timestamps_unit", .leaf "1e-8")])
    (.group [("measurement_type", .leaf "generic")])
    "/photon_data" "generic" false
    (by decide) rfl (by decide) rfl rfl (by decide)

/-- Claim C1: in a measurement group with the timestamps structure,
detector channels, pulse rate and nanotimes fields all present but
`nantotimes_specs/tcspc_unit` absent, a `measurement_type` of
"smFRET-nsALEX" makes `_check_photon_data` raise `Invalid_PhotonHDF5`
regardless of `strict`, while a `measurement_type` of "smFRET" on the
same structure validates cleanly (the absent field is irrelevant to that
type). -/
theorem C1_nsALEX_requires_tcspc_unit
    (ph_data tspecs mspecs dspecs nts : HNode) (path mt : String) (strict : Bool)
    (h1 : ph_data.hasChild "timestamps" = true)
    (h2 : ph_data.find "timestamps_specs" = some tspecs)
    (h3 : tspecs.hasChild "timestamps_unit" = true)
    (h4 : ph_data.find "measurement_specs" = some mspecs)
    (h5 : mspecs.find "measurement_type" = some (.leaf mt))
    (h6 : mspecs.find "detectors_specs" = some dspecs)
    (h7 : dspecs.hasChild "spectral_ch1" = true)
    (h8 : dspecs.hasChild "spectral_ch2" = true)
    (h9 : mspecs.hasChild "laser_pulse_rate" = true)
    (h10 : ph_data.hasChild "nantotimes" = true)
    (h11 : ph_data.find "nantotimes_specs" = some nts)
    (h12 : nts.hasChild "tcspc_unit" = false) :
    (mt = "smFRET-nsALEX" →
      _check_photon_data ph_data path strict
        = VOut.raise (PyErr.invalid
            (mtypeMsg "tcspc_unit" (path ++ "/nantotimes_specs") "smFRET-nsALEX")))
    ∧ (mt = "smFRET" →
      _check_photon_data ph_data path strict = VOut.ok) := by
  constructor
  · intro hmt
    subst hmt
    unfold _check_photon_data
    simp [h1, hasChild_of_find h2, h2, h3, hasChild_of_find h4, h4,
          hasChild_of_find h5, h5, readLeaf, spectral_meas_types,
          h6, assertHasFieldMtype, h7, h8, h9, h10, hasChild_of_find h11, h11, h12,
          ok_andThen, raise_andThen]
  · intro hmt
    subst hmt
    unfold _check_photon_data
    simp [h1, hasChild_of_find h2, h2, h3, hasChild_of_find h4, h4,
          hasChild_of_find h5, h5, readLeaf, spectral_meas_types,
          h6, assertHasFieldMtype, h7, h8, ok_andThen]

/-- A measurement group with all nsALEX-prerequisite fields present except
`nantotimes_specs/tcspc_unit`, with the given measurement type. -/
def exNsAlexGroup (mt : String) : HNode := .group [
  ("timestamps", .leaf "ts"),
  ("timestamps_specs", .group [("timestamps_unit", .leaf "1e-8")]),
  ("measurement_specs", .group [
     ("measurement_type", .leaf mt),
     ("detectors_specs", .group [("spectral_ch1", .leaf "0"), ("spectral_ch2", .leaf "1")]),
     ("laser_pulse_rate", .leaf "4e7")]),
  ("nantotimes", .leaf "nt"),
  ("nantotimes_specs", .group [("tcspc_range", .leaf "50e-9")])]

/-- Witness for claim C1: the same structure is rejected as
"smFRET-nsALEX" data even with `strict = false`, and accepted as
"smFRET" data even with `strict = true`. -/
theorem C1_nsALEX_requires_tcspc_unit_witness :
    _check_photon_data (exNsAlexGroup "smFRET-nsALEX") "/photon_data" false
      = VOut.raise (PyErr.invalid
          (mtypeMsg "tcspc_unit" "/photon_data/nantotimes_specs" "smFRET-nsALEX"))
    ∧ _check_photon_data (exNsAlexGroup "smFRET") "/photon_data" true = VOut.ok :=
  ⟨(C1_nsALEX_requires_tcspc_unit (exNsAlexGroup "smFRET-nsALEX")
      (.group [("timestamps_unit", .leaf "1e-8")])
      (.group [
        ("measurement_type", .leaf "smFRET-nsALEX"),
        ("detectors_specs", .group [("spectral_ch1", .leaf "0"), ("spectral_ch2", .leaf "1")]),
        ("laser_pulse_rate", .leaf "4e7")])
      (.group [("spectral_ch1", .leaf "0"), ("spectral_ch2", .leaf "1")])
      (.group [("tcspc_range", .leaf "50e-9")])
      "/photon_data" "smFRET-nsALEX" false
      (by decide) rfl (by decide) rfl rfl rfl
      (by decide) (by decide) (by decide) (by decide) rfl (by decide)).1 rfl,
   (C1_nsALEX_requires_tcspc_unit (exNsAlexGroup "smFRET")
      (.group [("timestamps_unit", .leaf "1e-8")])
      (.group [
        ("measurement_type", .leaf "smFRET"),
        ("detectors_specs", .group [("spectral_ch1", .leaf "0"), ("spectral_ch2", .leaf "1")]),
        ("laser_pulse_rate", .leaf "4e7")])
      (.group [("spectral_ch1", .leaf "0"), ("spectral_ch2", .leaf "1")])
      (.group [("tcspc_range", .leaf "50e-9")])
      "/photon_data" "smFRET" true
      (by decide) rfl (by decide) rfl rfl rfl
      (by decide) (by decide) (by decide) (by decide) rfl (by decide)).2 rfl⟩

theorem setupStep_false_err_none (setup : HNode) (n : String) :
    (setupStep setup false n).err = none := by
  unfold setupStep _raise_invalid_file
  by_cases h : setup.hasChild n = true <;> simp [h, VOut.ok]

/-- Claim C8: the setup-related checks are severity-gated by `strict`: a
missing mandatory field of the `setup` group makes `_check_setup` raise
only when `strict = true` and only warn (no exception) when
`strict = false`; likewise a root without a `setup` group is rejected
only when `strict = true` and merely produces the warning when
`strict = false`. -/
theorem C8_setup_checks_strict_gated (setup data : HNode) (name : String)
    (hmem : name ∈ mantatory_fields) (hmiss : setup.hasChild name = false) :
    (_check_setup setup true).err ≠ none
    ∧ (_check_setup setup false).err = none
    ∧ ("Missing \"/setup/" ++ name ++ "\".") ∈ (_check_setup setup false).warns
    ∧ (data.hasChild "setup" = false →
        (setupPhase data true).err
          = some (PyErr.invalid "Invalid Photon-HDF5: Missing /setup group.")
        ∧ setupPhase data false
          = ⟨["Invalid Photon-HDF5: Missing /setup group."], none⟩) := by
  refine ⟨?_, ?_, ?_, fun hsetup => ?_⟩
  · intro hnone
    have := foldVOut_ok_of_mem (setupStep setup true) mantatory_fields VOut.ok
      name hmem hnone
    rw [setupStep, hmiss] at this
    simp [_raise_invalid_file, VOut.raise] at this
  · exact foldVOut_err_none (setupStep setup false)
      (setupStep_false_err_none setup) mantatory_fields VOut.ok rfl
  · apply foldVOut_warn_mem (setupStep setup false)
      (setupStep_false_err_none setup) mantatory_fields VOut.ok name hmem rfl
    rw [setupStep, hmiss]
    simp [_raise_invalid_file]
  · unfold setupPhase
    rw [hsetup]
    exact ⟨rfl, rfl⟩

/-- Witness for claim C8: an empty `setup` group (missing `lifetime`) and a
root without any `setup` group. -/
theorem C8_setup_checks_strict_gated_witness :
    (_check_setup (.group []) true).err ≠ none
    ∧ (_check_setup (.group []) false).err = none
    ∧ "Missing \"/setup/lifetime\"." ∈ (_check_setup (.group []) false).warns
    ∧ ((setupPhase (.group []) true).err
        = some (PyErr.invalid "Invalid Photon-HDF5: Missing /setup group.")
       ∧ setupPhase (.group []) false
        = ⟨["Invalid Photon-HDF5: Missing /setup group."], none⟩) := by
  have h := C8_setup_checks_strict_gated (.group []) (.group []) "lifetime"
    (by decide) (by decide)
  exact ⟨h.1, h.2.1, h.2.2.1, h.2.2.2 (by decide)⟩

theorem find?_filter_of {α : Type} (p keep : α → Bool) (l : List α)
    (h : ∀ x, p x = true → keep x = true) :
    (l.filter keep).find? p = l.find? p := by
  induction l with
  | nil => rfl
  | cons x xs ih =>
    by_cases hp : p x = true
    · rw [List.filter_cons_of_pos (h _ hp), List.find?_cons_of_pos _ hp,
          List.find?_cons_of_pos _ hp]
    · by_cases hk : keep x = true
      · rw [List.filter_cons_of_pos hk, List.find?_cons_of_neg _ hp,
            List.find?_cons_of_neg _ hp]
        exact ih
      · rw [List.filter_cons_of_neg hk, List.find?_cons_of_neg _ hp]
        exact ih

theorem dictGet_dictUpdate_of_isSome {α : Type} (d u : List (String × α))
    (k : String) (h : (dictGet u k).isSome = true) :
    dictGet (dictUpdate d u) k = dictGet u k := by
  unfold dictGet dictUpdate at *
  rw [List.find?_append, Option.or_of_isSome]
  rwa [Option.isSome_map'] at h

theorem dictGet_dictUpdate_of_none {α : Type} (d u : List (String × α))
    (k : String) (h : dictGet u k = none) :
    dictGet (dictUpdate d u) k = dictGet d k := by
  unfold dictGet dictUpdate at *
  rw [Option.map_eq_none'] at h
  rw [List.find?_append, h, Option.none_or]
  congr 1
  apply find?_filter_of
  intro x hx
  rw [decide_eq_true_eq] at hx
  rw [List.find?_eq_none] at h
  simp only [Bool.not_eq_true', List.any_eq_false, decide_eq_true_eq]
  intro y hy
  have h2 := h y hy
  simp only [decide_eq_true_eq] at h2
  rw [hx]
  exact h2

/-- Claim C9: when building the merged field table for a save operation,
a user-overlay entry for a path that is also in the official table takes
precedence over the official description, and official entries for paths
absent from the overlay are preserved. -/
theorem C9_overlay_precedence (u : List (String × String)) (p : String) :
    ((dictGet official_fields_descr p).isSome = true →
     (dictGet u p).isSome = true →
      dictGet (buildFieldsDescr (some u)) p = dictGet u p)
    ∧ (dictGet u p = none →
      dictGet (buildFieldsDescr (some u)) p = dictGet official_fields_descr p) :=
  ⟨fun _ hu => dictGet_dictUpdate_of_isSome official_fields_descr u p hu,
   fun hu => dictGet_dictUpdate_of_none official_fields_descr u p hu⟩

/-- Witness for claim C9 at a concrete overlay: the user's description of
the official path `/comment` wins; the official entry `/setup` survives. -/
theorem C9_overlay_precedence_witness :
    dictGet (buildFieldsDescr (some [("/comment", "my comment")])) "/comment"
      = some "my comment"
    ∧ dictGet (buildFieldsDescr (some [("/comment", "my comment")])) "/setup"
      = some "setup group" :=
  ⟨by rw [(C9_overlay_precedence [("/comment", "my comment")] "/comment").1
        (by decide) (by decide)]; decide,
   by rw [(C9_overlay_precedence [("/comment", "my comment")] "/setup").2 (by decide)];
      decide⟩

theorem dictGet_dictSet_same {α : Type} (d : List (String × α)) (k : String) (v : α) :
    dictGet (dictSet d k v) k = some v := by
  unfold dictSet
  rw [dictGet_dictUpdate_of_isSome]
  · unfold dictGet
    rw [List.find?_cons_of_pos _ (by simp)]
    rfl
  · unfold dictGet
    rw [List.find?_cons_of_pos _ (by simp)]
    rfl

theorem dictGet_dictSet_other {α : Type} (d : List (String × α)) (k k' : String)
    (v : α) (hne : ¬ k' = k) :
    dictGet (dictSet d k v) k' = dictGet d k' := by
  unfold dictSet
  rw [dictGet_dictUpdate_of_none]
  unfold dictGet
  rw [List.find?_cons_of_neg _ (by simp; intro hc; exact hne hc.symm)]
  rfl

theorem dictGet_popKey_same {α : Type} (d : List (String × α)) (k : String) :
    dictGet (popKey d k) k = none := by
  unfold dictGet popKey
  rw [Option.map_eq_none', List.find?_eq_none]
  intro x hx
  rw [List.mem_filter] at hx
  have h2 := hx.2
  simp only [Bool.not_eq_true', decide_eq_false_iff_not] at h2
  simpa using h2

theorem dictGet_popKey_other {α : Type} (d : List (String × α)) (k k' : String)
    (hne : ¬ k' = k) :
    dictGet (popKey d k) k' = dictGet d k' := by
  unfold dictGet popKey
  congr 1
  apply find?_filter_of
  intro x hx
  rw [decide_eq_true_eq] at hx
  simp only [Bool.not_eq_true', decide_eq_false_iff_not]
  rw [hx]
  exact hne

/-- Claim C10: the dictionary bookkeeping of `save_photon_hdf5` mutates the
caller-supplied dict: on a successful run the caller's dict gains
`data_file` (the reference to the opened output file); when `h5_fname` is
None the caller's dict also loses `filename`; the injected `identity`
group is added only to the internal shallow copy that is written to disk,
never to the caller's dict (and symmetrically `data_file` is not on the
internal copy). -/
theorem C10_save_mutates_caller_dict (d caller internal : List (String × PyVal))
    (fn : Option String)
    (h : save_photon_hdf5_dicts d fn = Except.ok (caller, internal)) :
    dictGet caller "data_file" = some PyVal.dataFileRef
    ∧ (fn = none → dictGet caller "filename" = none)
    ∧ (dictGet d "identity" = none → dictGet caller "identity" = none)
    ∧ dictGet internal "identity" = some PyVal.identityDict
    ∧ (dictGet d "data_file" = none → dictGet internal "data_file" = none) := by
  cases fn with
  | some s =>
    unfold save_photon_hdf5_dicts at h
    simp only [Except.ok.injEq, Prod.mk.injEq] at h
    obtain ⟨hc, hi⟩ := h
    subst hc
    subst hi
    refine ⟨dictGet_dictSet_same _ _ _, fun hfn => Option.noConfusion hfn,
            fun hid => ?_, dictGet_dictSet_same _ _ _, fun hdf => ?_⟩
    · rw [dictGet_dictSet_other _ _ _ _ (by decide)]
      exact hid
    · rw [dictGet_dictSet_other _ _ _ _ (by decide)]
      exact hdf
  | none =>
    unfold save_photon_hdf5_dicts at h
    cases hf : dictGet d "filename" with
    | none => rw [hf] at h; exact absurd h (by simp)
    | some v =>
      rw [hf] at h
      simp only [Except.ok.injEq, Prod.mk.injEq] at h
      obtain ⟨hc, hi⟩ := h
      subst hc
      subst hi
      refine ⟨dictGet_dictSet_same _ _ _, fun _ => ?_, fun hid => ?_,
              dictGet_dictSet_same _ _ _, fun hdf => ?_⟩
      · rw [dictGet_dictSet_other _ _ _ _ (by decide)]
        exact dictGet_popKey_same _ _
      · rw [dictGet_dictSet_other _ _ _ _ (by decide),
            dictGet_popKey_other _ _ _ (by decide)]
        exact hid
      · rw [dictGet_dictSet_other _ _ _ _ (by decide),
            dictGet_popKey_other _ _ _ (by decide)]
        exact hdf

/-- Witness for claim C10: a caller dict holding only `filename`, saved
with `h5_fname = None`. -/
theorem C10_save_mutates_caller_dict_witness :
    dictGet (dictSet (popKey [("filename", PyVal.pystr "a.dat")] "filename")
        "data_file" PyVal.dataFileRef) "data_file" = some PyVal.dataFileRef
    ∧ dictGet (dictSet (popKey [("filename", PyVal.pystr "a.dat")] "filename")
        "data_file" PyVal.dataFileRef) "filename" = none
    ∧ dictGet (dictSet (popKey [("filename", PyVal.pystr "a.dat")] "filename")
        "identity" PyVal.identityDict) "identity" = some PyVal.identityDict := by
  have h := C10_save_mutates_caller_dict [("filename", PyVal.pystr "a.dat")]
    (dictSet (popKey [("filename", PyVal.pystr "a.dat")] "filename")
        "data_file" PyVal.dataFileRef)
    (dictSet (popKey [("filename", PyVal.pystr "a.dat")] "filename")
        "identity" PyVal.identityDict)
    none rfl
  exact ⟨h.1, h.2.1 rfl, h.2.2.2.1⟩

/-! ### Lemmas for the user-exemption claim -/

theorem containsSub_iff (hay needle : List Char) :
    containsSub hay needle = true ↔ needle <:+: hay := by
  induction hay with
  | nil =>
    unfold containsSub
    rw [decide_eq_true_eq, List.infix_nil]
  | cons c rest ih =>
    unfold containsSub
    rw [Bool.or_eq_true, decide_eq_true_eq, ih, List.infix_cons_iff,
        List.prefix_iff_eq_take]

theorem strContains_of_part {hay needle : String}
    (h : needle.data <:+: hay.data) : strContains hay needle = true := by
  unfold strContains
  rw [containsSub_iff]
  exact h

/-- Appending anything on the right preserves an infix on the left part. -/
theorem infix_append_right {α : Type} {x l : List α} (t : List α)
    (h : x <:+: l) : x <:+: l ++ t := by
  obtain ⟨s1, s2, hs⟩ := h
  exact ⟨s1, s2 ++ t, by rw [← hs]; simp⟩

/-- One `childPath` step only appends characters on the right. -/
theorem childPath_data (p n : String) :
    ∃ t : List Char, (childPath p n).data = p.data ++ t := by
  unfold childPath
  by_cases h : p = "/"
  · subst h
    exact ⟨n.data, by rw [if_pos rfl, String.data_append]⟩
  · exact ⟨'/' :: n.data, by
      rw [if_neg h, String.data_append, String.data_append, List.append_assoc]
      rfl⟩

theorem infix_foldl_childPath {x : List Char} (segs : List String) (q : String)
    (h : x <:+: q.data) : x <:+: (segs.foldl childPath q).data := by
  induction segs generalizing q with
  | nil => exact h
  | cons s rest ih =>
    simp only [List.foldl_cons]
    apply ih
    obtain ⟨t, ht⟩ := childPath_data q s
    rw [ht]
    exact infix_append_right t h

theorem slashUser_infix_foldl :
    ∀ (segs : List String) (q : String), "user" ∈ segs →
      "/user".data <:+: (segs.foldl childPath q).data := by
  intro segs
  induction segs with
  | nil => intro q hu; cases hu
  | cons s rest ih =>
    intro q hu
    simp only [List.foldl_cons]
    rcases List.mem_cons.mp hu with h | h
    · subst h
      apply infix_foldl_childPath
      unfold childPath
      by_cases hq : q = "/"
      · rw [if_pos hq]
        have he : ("/" ++ "user" : String) = "/user" := by decide
        rw [he]
      · rw [if_neg hq]
        refine ⟨q.data, [], ?_⟩
        rw [List.append_nil, String.data_append, String.data_append,
            List.append_assoc]
        rfl
    · exact ih (childPath q s) h

/-- The rendered path of a segment list containing a `user` segment
contains the substring `/user`. -/
theorem slashUser_infix_renderPath (segs : List String) (hu : "user" ∈ segs) :
    "/user".data <:+: (renderPath segs).data :=
  slashUser_infix_foldl segs "/" hu

theorem splitSlash_ne_nil (l : List Char) : splitSlash l ≠ [] := by
  induction l with
  | nil => simp [splitSlash]
  | cons c cs ih =>
    unfold splitSlash
    cases h : splitSlash cs with
    | nil => exact absurd h ih
    | cons x xs =>
      by_cases hc : c = '/' <;> simp [hc]

theorem splitSlash_cons_slash (cs : List Char) :
    splitSlash ('/' :: cs) = [] :: splitSlash cs := by
  conv_lhs => rw [splitSlash]
  cases h : splitSlash cs with
  | nil => exact absurd h (splitSlash_ne_nil cs)
  | cons x xs => simp

theorem splitSlash_of_no_slash (l : List Char) (h : '/' ∉ l) :
    splitSlash l = [l] := by
  induction l with
  | nil => rfl
  | cons c cs ih =>
    have hc : ¬ c = '/' := fun hcc => h (hcc ▸ List.mem_cons_self c cs)
    have hcs : '/' ∉ cs := fun hm => h (List.mem_cons_of_mem c hm)
    unfold splitSlash
    rw [ih hcs]
    simp [hc]

theorem splitSlash_seg_append (s cs : List Char) (h : '/' ∉ s) :
    splitSlash (s ++ '/' :: cs) = s :: splitSlash cs := by
  induction s with
  | nil => simpa using splitSlash_cons_slash cs
  | cons c s' ih =>
    have hc : ¬ c = '/' := fun hcc => h (hcc ▸ List.mem_cons_self c s')
    have hs' : '/' ∉ s' := fun hm => h (List.mem_cons_of_mem c hm)
    rw [List.cons_append]
    conv_lhs => rw [splitSlash]
    rw [ih hs']
    simp [hc]

theorem joinSlash_ne_nil (s : String) (rest : List String) (hs : s.data ≠ []) :
    joinSlash (s :: rest) ≠ [] := by
  cases rest with
  | nil => exact hs
  | cons r rs =>
    unfold joinSlash
    exact List.append_ne_nil_of_left_ne_nil hs _

theorem splitSlash_joinSlash_append (cs : List Char) :
    ∀ (pl : List String), pl ≠ [] → (∀ s ∈ pl, '/' ∉ s.data) →
      splitSlash (joinSlash pl ++ '/' :: cs)
        = pl.map String.data ++ splitSlash cs := by
  intro pl
  induction pl with
  | nil => intro h; exact absurd rfl h
  | cons s rest ih =>
    intro _ hfree
    cases rest with
    | nil =>
      unfold joinSlash
      rw [splitSlash_seg_append _ _ (hfree s (List.mem_cons_self s []))]
      rfl
    | cons r rs =>
      have hjoin : joinSlash (s :: r :: rs) = s.data ++ '/' :: joinSlash (r :: rs) := rfl
      rw [hjoin, List.append_assoc, List.cons_append,
          splitSlash_seg_append _ _ (hfree s (List.mem_cons_self s _)),
          ih (by simp) (fun x hx => hfree x (List.mem_cons_of_mem s hx))]
      rfl

theorem map_mk_data (l : List String) : l.map (fun s => String.mk s.data) = l := by
  induction l with
  | nil => rfl
  | cons s rest ih => simp [ih]

theorem joinSlash_head?_mem (s : String) (rest : List String) (hs : s.data ≠ [])
    {c : Char} (h : (joinSlash (s :: rest)).head? = some c) : c ∈ s.data := by
  cases rest with
  | nil => exact List.mem_of_mem_head? (Option.mem_def.mpr h)
  | cons r rs =>
    unfold joinSlash at h
    rw [List.head?_append, Option.or_of_isSome
      (by rw [Option.isSome_iff_ne_none, Ne, List.head?_eq_none_iff]; exact hs)] at h
    exact List.mem_of_mem_head? (Option.mem_def.mpr h)

theorem joinSlash_getLast?_mem :
    ∀ (pl : List String), (∀ s ∈ pl, s.data ≠ []) → ∀ {c : Char},
      (joinSlash pl).getLast? = some c → ∃ s ∈ pl, c ∈ s.data := by
  intro pl
  induction pl with
  | nil => intro _ c h; simp [joinSlash] at h
  | cons s rest ih =>
    intro hne c h
    cases rest with
    | nil =>
      exact ⟨s, List.mem_cons_self s [],
        List.mem_of_mem_getLast? (Option.mem_def.mpr h)⟩
    | cons r rs =>
      have hjr : joinSlash (r :: rs) ≠ [] :=
        joinSlash_ne_nil r rs (hne r (by simp))
      unfold joinSlash at h
      rw [List.getLast?_append, Option.or_of_isSome
        (List.getLast?_isSome.mpr (by simp))] at h
      rw [show ('/' :: joinSlash (r :: rs)) = ['/'] ++ joinSlash (r :: rs) from rfl,
          List.getLast?_append,
          Option.or_of_isSome (List.getLast?_isSome.mpr hjr)] at h
      obtain ⟨t, ht, hc⟩ := ih (fun x hx => hne x (List.mem_cons_of_mem s hx)) h
      exact ⟨t, List.mem_cons_of_mem s ht, hc⟩

theorem String_mk_data (s : String) : String.mk s.data = s := rfl

theorem map_mk_comp_data (l : List String) :
    l.map (String.mk ∘ String.data) = l := by
  induction l with
  | nil => rfl
  | cons s rest ih =>
    simp only [List.map_cons, ih]
    rfl

theorem analyze_user_scoped (name : String) (ancestors : List String)
    (hne : name.data ≠ []) (hfree : '/' ∉ name.data)
    (hanc : ∀ s ∈ ancestors, s.data ≠ [] ∧ '/' ∉ s.data)
    (hu : name = "user" ∨ "user" ∈ ancestors) :
    ∃ (m : String) (b : Bool),
      _analyze_path name ancestors = Except.ok (m, b, true) := by
  have hhead : ¬ (name.data.head? = some '/' ∨ name.data.getLast? = some '/') := by
    rintro (h | h)
    · exact hfree (List.mem_of_mem_head? (Option.mem_def.mpr h))
    · exact hfree (List.mem_of_mem_getLast? (Option.mem_def.mpr h))
  cases hanccase : ancestors with
  | nil =>
    have hname : name = "user" := by
      rcases hu with h | h
      · exact h
      · rw [hanccase] at h; cases h
    subst hname
    exact ⟨"/user", false, by decide⟩
  | cons a rest =>
    subst hanccase
    have hpne : joinSlash (a :: rest) ≠ [] :=
      joinSlash_ne_nil a rest (hanc a (by simp)).1
    have hphead : ¬ ((joinSlash (a :: rest)).head? = some '/'
        ∨ (joinSlash (a :: rest)).getLast? = some '/') := by
      rintro (h | h)
      · exact (hanc a (by simp)).2 (joinSlash_head?_mem a rest (hanc a (by simp)).1 h)
      · obtain ⟨s, hs, hc⟩ := joinSlash_getLast?_mem (a :: rest)
          (fun x hx => (hanc x hx).1) h
        exact (hanc s hs).2 hc
    have hchunks : (splitSlash (('/' :: joinSlash (a :: rest)) ++ '/' :: name.data)).map
        String.mk = "" :: ((a :: rest) ++ [name]) := by
      rw [List.cons_append, splitSlash_cons_slash,
          splitSlash_joinSlash_append name.data (a :: rest) (by simp)
            (fun s hs => (hanc s hs).2),
          splitSlash_of_no_slash name.data hfree]
      simp only [List.map_cons, List.map_append, List.map_map, List.map_nil]
      rw [map_mk_comp_data rest]
    have huser : "user" ∈ ("" :: ((a :: rest) ++ [name])) := by
      rcases hu with h | h
      · exact List.mem_cons_of_mem _ (List.mem_append.mpr (Or.inr (by simp [h])))
      · exact List.mem_cons_of_mem _ (List.mem_append.mpr (Or.inl h))
    have hlen : ¬ (("" :: ((a :: rest) ++ [name])).length < 2) := by
      simp
    have hlast : ("" :: ((a :: rest) ++ [name])).getLast? = some name := by
      rw [show ("" :: ((a :: rest) ++ [name])) = ("" :: (a :: rest)) ++ [name] by simp,
          List.getLast?_concat]
    unfold _analyze_path
    rw [if_neg hne, if_neg hhead]
    simp only [List.isEmpty_cons, Bool.false_eq_true, if_false,
      if_neg hpne, if_neg hphead, hchunks]
    rw [if_neg hlen, if_neg (by rw [hlast]; simp)]
    rw [decide_eq_true huser]
    by_cases hsw : strStartsWith
        (String.mk (('/' :: joinSlash (a :: rest)) ++ '/' :: name.data))
        "/photon_data" = true
    · rw [if_pos hsw]
      exact ⟨_, _, rfl⟩
    · rw [if_neg hsw]
      exact ⟨_, _, rfl⟩

/-- Claim C7: a path containing a segment equal to `user` is exempt from
the unknown-field check: `_check_path` (applied by the name/path sweep
`_check_valid_names` to every node pathname) returns with no raised error
and no warning for either value of `strict`; and the writer's
`_analyze_path` reports any such name/ancestor decomposition (well-formed
segments: nonempty, slash-free) as user-scoped. -/
theorem C7_user_exemption (segs : List String) (strict : Bool)
    (name : String) (ancestors : List String) :
    ("user" ∈ segs → _check_path (renderPath segs) strict = VOut.ok)
    ∧ (name.data ≠ [] → '/' ∉ name.data →
       (∀ s ∈ ancestors, s.data ≠ [] ∧ '/' ∉ s.data) →
       (name = "user" ∨ "user" ∈ ancestors) →
       ∃ (m : String) (b : Bool),
         _analyze_path name ancestors = Except.ok (m, b, true)) := by
  constructor
  · intro hu
    unfold _check_path
    rw [if_pos (strContains_of_part (slashUser_infix_renderPath segs hu))]
  · exact fun h1 h2 h3 h4 => analyze_user_scoped name ancestors h1 h2 h3 h4

/-- Witness for claim C7: the pathname `/photon_data0/user/custom` is
accepted by the strict name sweep, and the node `note` under the
ancestor `user` is analyzed as user-scoped. -/
theorem C7_user_exemption_witness :
    _check_path (renderPath ["photon_data0", "user", "custom"]) true = VOut.ok
    ∧ ∃ (m : String) (b : Bool),
        _analyze_path "note" ["user"] = Except.ok (m, b, true) :=
  ⟨(C7_user_exemption ["photon_data0", "user", "custom"] true "note" ["user"]).1
      (by decide),
   (C7_user_exemption ["photon_data0", "user", "custom"] true "note" ["user"]).2
      (by decide) (by decide) (by decide) (Or.inr (by decide))⟩
